import Mathlib

set_option maxRecDepth 100000

/-!
Verification of the `poc/feishu_news` aggregation pipeline
(`news_crawler.py`, `pipeline.py`) via a shallow embedding in Lean 4.

Python strings are modelled as Lean `String` (both index by code points),
machine integers as `Nat`/`Int` with explicit `% 2^32` where overflow
matters, fallible code as `Except`/`Option`.
-/

namespace FeishuNews

/-! ### MD5 (embedding of `hashlib.md5(...).hexdigest()`)

`NewsArticle.uid` is `hashlib.md5(self.url.encode()).hexdigest()[:12]`.
We embed MD5 (RFC 1321) over `Nat` with explicit reductions mod `2^32`,
operating on the UTF-8 bytes of the input string. -/

/-- Reduce mod `2^32` (32-bit word). -/
def w32 (n : Nat) : Nat := n % 4294967296

/-- 32-bit addition. -/
def wadd (a b : Nat) : Nat := (a + b) % 4294967296

/-- Bitwise NOT on a 32-bit word. -/
def wnot (a : Nat) : Nat := Nat.xor a 4294967295

/-- Left-rotation of a 32-bit word by `s` (for `a < 2^32`, `0 < s < 32`). -/
def rotl (a s : Nat) : Nat := (a * 2 ^ s) % 4294967296 + a / 2 ^ (32 - s)

/-- UTF-8 encoding of a single character as a byte list. -/
def utf8Bytes (c : Char) : List Nat :=
  let n := c.toNat
  if n < 128 then [n]
  else if n < 2048 then [192 + n / 64, 128 + n % 64]
  else if n < 65536 then [224 + n / 4096, 128 + n / 64 % 64, 128 + n % 64]
  else [240 + n / 262144, 128 + n / 4096 % 64, 128 + n / 64 % 64, 128 + n % 64]

/-- UTF-8 bytes of a string (embedding of Python `str.encode()`). -/
def strBytes (s : String) : List Nat :=
  (s.toList.map utf8Bytes).foldr (· ++ ·) []

/-- MD5 per-round sine constants `K[i] = floor(abs(sin(i+1)) * 2^32)`. -/
def md5K : List Nat :=
  [3614090360, 3905402710, 606105819, 3250441966, 4118548399, 1200080426,
   2821735955, 4249261313, 1770035416, 2336552879, 4294925233, 2304563134,
   1804603682, 4254626195, 2792965006, 1236535329, 4129170786, 3225465664,
   643717713, 3921069994, 3593408605, 38016083, 3634488961, 3889429448,
   568446438, 3275163606, 4107603335, 1163531501, 2850285829, 4243563512,
   1735328473, 2368359562, 4294588738, 2272392833, 1839030562, 4259657740,
   2763975236, 1272893353, 4139469664, 3200236656, 681279174, 3936430074,
   3572445317, 76029189, 3654602809, 3873151461, 530742520, 3299628645,
   4096336452, 1126891415, 2878612391, 4237533241, 1700485571, 2399980690,
   4293915773, 2240044497, 1873313359, 4264355552, 2734768916, 1309151649,
   4149444226, 3174756917, 718787259, 3951481745]

/-- MD5 per-round left-rotation amounts. -/
def md5S : List Nat :=
  [7, 12, 17, 22, 7, 12, 17, 22, 7, 12, 17, 22, 7, 12, 17, 22,
   5, 9, 14, 20, 5, 9, 14, 20, 5, 9, 14, 20, 5, 9, 14, 20,
   4, 11, 16, 23, 4, 11, 16, 23, 4, 11, 16, 23, 4, 11, 16, 23,
   6, 10, 15, 21, 6, 10, 15, 21, 6, 10, 15, 21, 6, 10, 15, 21]

/-- MD5 nonlinear round function and message-word index for round `i`. -/
def md5FG (i b c d : Nat) : Nat × Nat :=
  if i < 16 then (Nat.lor (Nat.land b c) (Nat.land (wnot b) d), i)
  else if i < 32 then (Nat.lor (Nat.land d b) (Nat.land (wnot d) c), (5 * i + 1) % 16)
  else if i < 48 then (Nat.xor b (Nat.xor c d), (3 * i + 5) % 16)
  else (Nat.xor c (Nat.lor b (wnot d)), (7 * i) % 16)

/-- One MD5 round step: state `(a,b,c,d)`, message words `m`, round `i`. -/
def md5Step (m : List Nat) (st : Nat × Nat × Nat × Nat) (i : Nat) :
    Nat × Nat × Nat × Nat :=
  let (a, b, c, d) := st
  let (f, g) := md5FG i b c d
  let tmp := wadd (wadd (wadd a f) (md5K.getD i 0 + m.getD g 0)) 0
  let b' := wadd b (rotl (w32 tmp) (md5S.getD i 7))
  (d, b', b, c)

/-- Process one 64-byte block (as 16 little-endian 32-bit words `m`). -/
def md5Block (st : Nat × Nat × Nat × Nat) (m : List Nat) :
    Nat × Nat × Nat × Nat :=
  let (a0, b0, c0, d0) := st
  let (a, b, c, d) := (List.range 64).foldl (md5Step m) (a0, b0, c0, d0)
  (wadd a0 a, wadd b0 b, wadd c0 c, wadd d0 d)

/-- Split bytes into 16 little-endian words (a 64-byte chunk). -/
def bytesToWords : List Nat → List Nat
  | b0 :: b1 :: b2 :: b3 :: rest =>
      (b0 + 256 * b1 + 65536 * b2 + 16777216 * b3) :: bytesToWords rest
  | _ => []

/-- Process `k` 64-byte blocks of `l` in sequence, starting from `st`. -/
def md5Blocks : Nat → Nat × Nat × Nat × Nat → List Nat → Nat × Nat × Nat × Nat
  | 0, st, _ => st
  | k + 1, st, l => md5Blocks k (md5Block st (bytesToWords (l.take 64))) (l.drop 64)

/-- Little-endian byte encoding of `n`, `k` bytes. -/
def leBytes : Nat → Nat → List Nat
  | 0, _ => []
  | k + 1, n => n % 256 :: leBytes k (n / 256)

/-- MD5 padding: append `0x80`, zeros to 56 mod 64, then the 8-byte
little-endian bit length. -/
def md5Pad (msg : List Nat) : List Nat :=
  let len := msg.length
  let zeros := (119 - len % 64) % 64
  msg ++ [128] ++ List.replicate zeros 0 ++ leBytes 8 (8 * len)

/-- Hex digit characters. -/
def hexChars : List Char := "0123456789abcdef".toList

/-- Lowercase hex digit for `n < 16` (defaults to `'f'`). -/
def hexDigit (n : Nat) : Char := hexChars.getD n 'f'

/-- Two lowercase hex characters for a byte. -/
def byteHex (b : Nat) : List Char := [hexDigit (b / 16), hexDigit (b % 16)]

/-- The final MD5 state over the padded message of `s`. -/
def md5Digest (s : String) : Nat × Nat × Nat × Nat :=
  let padded := md5Pad (strBytes s)
  md5Blocks (padded.length / 64) (1732584193, 4023233417, 2562383102, 271733878) padded

/-- The 16 digest bytes, little-endian per state word. -/
def md5Bytes (s : String) : List Nat :=
  let st := md5Digest s
  leBytes 4 st.1 ++ leBytes 4 st.2.1 ++ leBytes 4 st.2.2.1 ++ leBytes 4 st.2.2.2

/-- MD5 digest of a string: 32 lowercase hex characters
(embedding of `hashlib.md5(s.encode()).hexdigest()`). -/
def md5hex (s : String) : String :=
  String.mk (((md5Bytes s).map byteHex).foldr (· ++ ·) [])

/-! ### Python string primitives

Slicing, `lower()`, `strip()` and `endswith()` are embedded explicitly
over the code-point list of the string (Python slices and iterates by
code point).  `lower()` is modelled on the ASCII range, which covers
every keyword and pattern this program compares case-insensitively. -/

/-- Python `s[:n]`. -/
def pyTake (s : String) (n : Nat) : String := String.mk (s.toList.take n)

/-- ASCII lowercasing of one character. -/
def charLower (c : Char) : Char :=
  if 65 ≤ c.toNat ∧ c.toNat ≤ 90 then Char.ofNat (c.toNat + 32) else c

/-- Python `s.lower()` (ASCII range). -/
def pyLower (s : String) : String := String.mk (s.toList.map charLower)

/-- Python whitespace (ASCII range): space, `\t`, `\n`, `\v`, `\f`, `\r`. -/
def isPySpace (c : Char) : Bool := c.toNat = 32 || (9 ≤ c.toNat && c.toNat ≤ 13)

/-- Python `s.strip()`. -/
def pyStrip (s : String) : String :=
  String.mk (((s.toList.dropWhile isPySpace).reverse.dropWhile isPySpace).reverse)

/-- `needle` occurs at the start of `hay` (char lists). -/
def startsWithChars : List Char → List Char → Bool
  | [], _ => true
  | _ :: _, [] => false
  | a :: as, b :: bs => a == b && startsWithChars as bs

/-- Char-list substring occurrence. -/
def hasSubChars (needle : List Char) (hay : List Char) : Bool :=
  match hay with
  | [] => startsWithChars needle []
  | _ :: rest => startsWithChars needle hay || hasSubChars needle rest

/-- Embedding of Python `needle in hay` for strings. -/
def pyIn (needle hay : String) : Bool :=
  hasSubChars needle.toList hay.toList

/-- `needle` is a suffix of `hay` (char lists). -/
def endsWithChars (needle hay : List Char) : Bool :=
  startsWithChars needle.reverse hay.reverse

/-- Python `s.endswith(t)`. -/
def pyEndsWith (s t : String) : Bool := endsWithChars t.toList s.toList

/-! ### Data model: `NewsArticle` (news_crawler.py lines 31-45)

Python `Optional[str]` is `Option String`; the dataclass defaults are the
defaults of `mkDefault`. -/

structure NewsArticle where
  title : String
  url : String
  summary : String := ""
  source : String := ""
  category : String := ""
  published_at : Option String := none
  tags : List String := []
  deriving DecidableEq, Repr

/-- `NewsArticle.uid`: `hashlib.md5(self.url.encode()).hexdigest()[:12]`.
A `@property`, hence recomputed from `url` on every access. -/
def NewsArticle.uid (a : NewsArticle) : String :=
  pyTake (md5hex a.url) 12

/-! ### Date model and `_parse_datetime` (lines 70-95)

`datetime` values are modelled by `PyDateTime` (year/month/day,
time-of-day, and an optional UTC offset in minutes — `tz = some 0`
is UTC).  `datetime.fromisoformat` is modelled on the common subset
`YYYY-MM-DD[<sep>HH[:MM[:SS]][±HH:MM]]` it accepts across Python
versions (fractional seconds are not used by this code's inputs);
out-of-range components are a `ValueError`, i.e. `none`. -/

structure PyDateTime where
  year : Nat
  month : Nat
  day : Nat
  hour : Nat := 0
  minute : Nat := 0
  second : Nat := 0
  tz : Option Int := none
  deriving DecidableEq, Repr

/-- Gregorian leap year (as in Python's `calendar`/`datetime`). -/
def isLeap (y : Nat) : Bool :=
  y % 4 = 0 && (y % 100 ≠ 0 || y % 400 = 0)

/-- Days in a month. -/
def daysInMonth (y m : Nat) : Nat :=
  if m = 2 then (if isLeap y then 29 else 28)
  else if m = 4 ∨ m = 6 ∨ m = 9 ∨ m = 11 then 30
  else 31

/-- The `datetime(year, month, day)` constructor: raises `ValueError`
(`Except.error`) on out-of-range components. -/
def datetime_mk (y m d : Nat) : Except String PyDateTime :=
  if y < 1 ∨ 9999 < y then .error "year is out of range"
  else if m < 1 ∨ 12 < m then .error "month must be in 1..12"
  else if d < 1 ∨ daysInMonth y m < d then .error "day is out of range for month"
  else .ok { year := y, month := m, day := d }

/-- Two decimal digits as a number. -/
def d2 (a b : Char) : Option Nat :=
  if a.isDigit && b.isDigit then some ((a.toNat - 48) * 10 + (b.toNat - 48))
  else none

/-- ISO-8601 UTC offset suffix `±HH:MM` (empty = no offset). -/
def isoOffset : List Char → Option (Option Int)
  | [] => some none
  | sign :: o1 :: o2 :: ':' :: o3 :: o4 :: [] =>
      match d2 o1 o2, d2 o3 o4 with
      | some oh, some om =>
          if (sign = '+' || sign = '-') && oh < 24 && om < 60 then
            some (some (if sign = '+' then (oh * 60 + om : Int) else -(oh * 60 + om : Int)))
          else none
      | _, _ => none
  | _ => none

/-- ISO-8601 time part `HH[:MM[:SS]]` plus optional offset. -/
def isoTime (cs : List Char) : Option (Nat × Nat × Nat × Option Int) :=
  match cs with
  | h1 :: h2 :: rest =>
      match d2 h1 h2 with
      | none => none
      | some hh =>
          match rest with
          | ':' :: m1 :: m2 :: rest2 =>
              match d2 m1 m2 with
              | none => none
              | some mm =>
                  match rest2 with
                  | ':' :: s1 :: s2 :: rest3 =>
                      match d2 s1 s2 with
                      | none => none
                      | some ss => (isoOffset rest3).map (fun tz => (hh, mm, ss, tz))
                  | _ => (isoOffset rest2).map (fun tz => (hh, mm, 0, tz))
          | _ => (isoOffset rest).map (fun tz => (hh, 0, 0, tz))
  | _ => none

/-- Model of `datetime.fromisoformat` on its documented
`YYYY-MM-DD[<sep>time]` subset; `none` models `ValueError`. -/
def fromisoformat (s : String) : Option PyDateTime :=
  match s.toList with
  | y1 :: y2 :: y3 :: y4 :: '-' :: mo1 :: mo2 :: '-' :: da1 :: da2 :: rest =>
      match d2 y1 y2, d2 y3 y4, d2 mo1 mo2, d2 da1 da2 with
      | some yh, some yl, some mo, some da =>
          let y := yh * 100 + yl
          let mk := fun (hh mm ss : Nat) (tz : Option Int) =>
              if 1 ≤ y ∧ 1 ≤ mo ∧ mo ≤ 12 ∧ 1 ≤ da ∧ da ≤ daysInMonth y mo
                  ∧ hh < 24 ∧ mm < 60 ∧ ss < 60 then
                some { year := y, month := mo, day := da,
                       hour := hh, minute := mm, second := ss, tz := tz }
              else none
          match rest with
          | [] => mk 0 0 0 none
          | _sep :: t =>
              match isoTime t with
              | some (hh, mm, ss, tz) => mk hh mm ss tz
              | none => none
      | _, _, _, _ => none
  | _ => none

/-- `[-./]` separator class of the numeric-date regex. -/
def isSep (c : Char) : Bool := c = '.' || c = '/' || c = '-'

/-- Trailing group `(\d{1,2})`: greedy, two digits if available. -/
def matchDay : List Char → Option Nat
  | c1 :: c2 :: _ =>
      if c1.isDigit then
        if c2.isDigit then some ((c1.toNat - 48) * 10 + (c2.toNat - 48))
        else some (c1.toNat - 48)
      else none
  | [c1] => if c1.isDigit then some (c1.toNat - 48) else none
  | [] => none

/-- Match of `(20\d{2})[-./](\d{1,2})[-./](\d{1,2})` anchored at the
start of the char list (with the regex's greedy backtracking). -/
def matchNumAt : List Char → Option (Nat × Nat × Nat)
  | '2' :: '0' :: c3 :: c4 :: s1 :: rest =>
      if c3.isDigit && c4.isDigit && isSep s1 then
        let y := 2000 + (c3.toNat - 48) * 10 + (c4.toNat - 48)
        match rest with
        | m1 :: m2 :: s2 :: rest2 =>
            if m1.isDigit && m2.isDigit && isSep s2 then
              (matchDay rest2).map (fun d => (y, (m1.toNat - 48) * 10 + (m2.toNat - 48), d))
            else if m1.isDigit && isSep m2 then
              (matchDay (s2 :: rest2)).map (fun d => (y, m1.toNat - 48, d))
            else none
        | _ => none
      else none
  | _ => none

/-- `re.search` for the numeric date pattern: leftmost match. -/
def searchNum : List Char → Option (Nat × Nat × Nat)
  | [] => none
  | c :: rest =>
      match matchNumAt (c :: rest) with
      | some r => some r
      | none => searchNum rest

/-- Trailing `(\d{1,2})日` of the Chinese date regex. -/
def matchCnDay : List Char → Option Nat
  | c1 :: c2 :: c3 :: _ =>
      if c1.isDigit && c2.isDigit && c3 = '日' then
        some ((c1.toNat - 48) * 10 + (c2.toNat - 48))
      else if c1.isDigit && c2 = '日' then some (c1.toNat - 48)
      else none
  | [c1, c2] => if c1.isDigit && c2 = '日' then some (c1.toNat - 48) else none
  | _ => none

/-- Match of `(20\d{2})年(\d{1,2})月(\d{1,2})日` anchored at the start. -/
def matchCnAt : List Char → Option (Nat × Nat × Nat)
  | '2' :: '0' :: c3 :: c4 :: yc :: rest =>
      if c3.isDigit && c4.isDigit && yc = '年' then
        let y := 2000 + (c3.toNat - 48) * 10 + (c4.toNat - 48)
        match rest with
        | m1 :: m2 :: m3 :: rest2 =>
            if m1.isDigit && m2.isDigit && m3 = '月' then
              (matchCnDay rest2).map (fun d => (y, (m1.toNat - 48) * 10 + (m2.toNat - 48), d))
            else if m1.isDigit && m2 = '月' then
              (matchCnDay (m3 :: rest2)).map (fun d => (y, m1.toNat - 48, d))
            else none
        | _ => none
      else none
  | _ => none

/-- `re.search` for the Chinese date pattern: leftmost match. -/
def searchCn : List Char → Option (Nat × Nat × Nat)
  | [] => none
  | c :: rest =>
      match matchCnAt (c :: rest) with
      | some r => some r
      | none => searchCn rest

/-- `raw.replace("Z", "+00:00")` (every occurrence). -/
def replaceZ (s : String) : String :=
  String.mk ((s.toList.map
    (fun c => if c = 'Z' then ['+', '0', '0', ':', '0', '0'] else [c])).foldr (· ++ ·) [])

/-- Embedding of `_parse_datetime(text)`.  `Except.error` models an
uncaught exception escaping the function; `.ok none` is Python `None`. -/
def parse_datetime (text : String) : Except String (Option PyDateTime) :=
  if text = "" then .ok none
  else
    let raw := pyStrip text
    if raw = "" then .ok none
    else
      let candidate := replaceZ raw
      match fromisoformat candidate with
      | some dt => .ok (some dt)
      | none =>
          match searchNum raw.toList with
          | some (y, m, d) => (datetime_mk y m d).map some
          | none =>
              match searchCn raw.toList with
              | some (y, m, d) => (datetime_mk y m d).map some
              | none => .ok none

/-- Zero-padded two-digit rendering. -/
def pad2 (n : Nat) : String := if n < 10 then "0" ++ toString n else toString n

/-- Zero-padded four-digit rendering. -/
def pad4 (n : Nat) : String :=
  if n < 10 then "000" ++ toString n
  else if n < 100 then "00" ++ toString n
  else if n < 1000 then "0" ++ toString n
  else toString n

/-- Rendering of a UTC offset as `±HH:MM` (empty when naive). -/
def tzSuffix : Option Int → String
  | none => ""
  | some off =>
      let mins := off.natAbs
      (if off < 0 then "-" else "+") ++ pad2 (mins / 60) ++ ":" ++ pad2 (mins % 60)

/-- Model of `datetime.isoformat()` (microseconds are always 0 here). -/
def isoformat (dt : PyDateTime) : String :=
  pad4 dt.year ++ "-" ++ pad2 dt.month ++ "-" ++ pad2 dt.day ++ "T" ++
    pad2 dt.hour ++ ":" ++ pad2 dt.minute ++ ":" ++ pad2 dt.second ++ tzSuffix dt.tz

/-! ### `_enrich_published_at` (lines 125-135)

The network re-fetch plus `_extract_published_from_soup` is modelled by
the parameter `fetched`: `none` when `_fetch_page` fails, `some raw`
for the recovered string (possibly `""`). -/

/-- Embedding of `_enrich_published_at(article)`; returns the parsed
datetime and the (possibly updated) article. -/
def enrich_published_at (art : NewsArticle) (fetched : Option String) :
    Except String (Option PyDateTime × NewsArticle) := do
  let dt0 ← parse_datetime (art.published_at.getD "")
  let dt ← match dt0 with
    | some d => pure (some d)
    | none =>
        match fetched with
        | none => pure none
        | some raw => parse_datetime raw
  match dt with
  | some d => pure (some d, { art with published_at := some (isoformat d) })
  | none => pure (none, art)

/-! ### `_extract_text` (lines 62-67)

The element is modelled as `Option String` carrying the text that
`element.get_text(strip=True)` would return (`none` = Python `None`). -/

/-- Embedding of `_extract_text(element, max_len=300)`. -/
def extract_text (element : Option String) (max_len : Nat := 300) : String :=
  match element with
  | none => ""
  | some text => if text.length > max_len then pyTake text max_len ++ "..." else text

/-! ### URL validity filter `_is_valid_article_url` (lines 223-238)

`urllib.parse.urlparse(url).path` is modelled for the shapes this code
meets: an absolute URL (`scheme://netloc/path`) or a bare path; query
(`?...`) and fragment (`#...`) parts are split off. -/

/-- Chars after the first `"://"`, if any. -/
def afterSchemeSep : List Char → Option (List Char)
  | [] => none
  | ':' :: '/' :: '/' :: rest => some rest
  | _ :: rest => afterSchemeSep rest

/-- Drop the netloc: keep from the first `'/'` on (or nothing). -/
def fromFirstSlash : List Char → List Char
  | [] => []
  | '/' :: rest => '/' :: rest
  | _ :: rest => fromFirstSlash rest

/-- Model of `urlparse(url).path`. -/
def urlPath (url : String) : String :=
  let cs := url.toList
  let body := match afterSchemeSep cs with
    | some rest => fromFirstSlash rest
    | none => cs
  String.mk (body.takeWhile (fun c => c ≠ '?' ∧ c ≠ '#'))

/-- The `skip_patterns` list (lines 228-232). -/
def SKIP_PATTERNS : List String :=
  ["/category/", "/tag/", "/page/", "/author/",
   "/search", "/login", "/signup", "/about",
   "/contact", "/privacy", "/terms"]

/-- `path.count("/")`. -/
def slashCount (s : String) : Nat := (s.toList.filter (· = '/')).length

/-- Embedding of `_is_valid_article_url(url, base_url)` (the `base_url`
parameter is unused by the Python body and omitted). -/
def is_valid_article_url (url : String) : Bool :=
  let path := pyLower (urlPath url)
  if SKIP_PATTERNS.any (fun p => pyIn p path) then false
  else if decide (slashCount path < 2) && !(pyEndsWith path "/") then true
  else decide (path.length > 5)

/-! ### Categorizer (lines 325-356) -/

/-- `CATEGORY_KEYWORDS`, in declaration order. -/
def CATEGORY_KEYWORDS : List (String × List String) :=
  [("🔥 重大发布",
    ["launch", "release", "announce", "发布", "推出", "上线",
     "GPT", "Claude", "Gemini", "Llama", "DeepSeek"]),
   ("🔬 研究突破",
    ["research", "paper", "study", "breakthrough", "论文",
     "研究", "突破", "benchmark", "SOTA"]),
   ("💰 产业动态",
    ["funding", "acquisition", "invest", "IPO", "融资",
     "收购", "市场", "估值", "partnership", "合作"]),
   ("🛠️ 工具与应用",
    ["tool", "framework", "open source", "API", "SDK",
     "开源", "工具", "应用", "plugin", "agent"]),
   ("🌍 政策与伦理",
    ["regulation", "policy", "safety", "ethic", "监管",
     "政策", "安全", "伦理", "法规"])]

/-- Keyword match count of one category against the case-folded text. -/
def categoryScore (text : String) (keywords : List String) : Nat :=
  (keywords.filter (fun kw => pyIn (pyLower kw) text)).length

/-- Python `max(iterable, key=...)`: keeps the first entry on ties
(replaces the running best only on a strictly greater score). -/
def firstMax (p : String × Nat) (rest : List (String × Nat)) : String × Nat :=
  rest.foldl (fun acc q => if q.2 > acc.2 then q else acc) p

/-- Embedding of `_categorize(article)` (lines 349-356). -/
def categorize (a : NewsArticle) : String :=
  let text := pyLower (a.title ++ " " ++ a.summary)
  let scores := CATEGORY_KEYWORDS.map (fun p => (p.1, categoryScore text p.2))
  match scores with
  | [] => "📰 综合资讯"
  | p :: rest =>
      let best := firstMax p rest
      if best.2 > 0 then best.1 else "📰 综合资讯"

/-- Modelled from the spec (refinement target for the categorizer):
"select the category with the highest count; ties resolve to the first
category in the fixed declaration order; a maximum count of zero
assigns a catch-all default category" — i.e. the first category whose
count equals the maximum of all counts, or the default on zero max. -/
def categorize_spec (a : NewsArticle) : String :=
  let text := pyLower (a.title ++ " " ++ a.summary)
  let pairs := CATEGORY_KEYWORDS.map (fun p => (p.1, categoryScore text p.2))
  let maxScore := (pairs.map Prod.snd).foldr max 0
  if maxScore = 0 then "📰 综合资讯"
  else
    match pairs.find? (fun q => q.2 == maxScore) with
    | some q => q.1
    | none => "📰 综合资讯"

/-! ### Deduplicator (lines 362-377) -/

/-- `a.title[:20].lower().strip()`: the approximate-duplicate title key. -/
def titleKey (a : NewsArticle) : String :=
  pyStrip (pyLower (pyTake a.title 20))

/-- The forward pass of `_deduplicate` with its two `seen` sets
(modelled as lists; only membership is used). -/
def dedupAux (seenU seenT : List String) : List NewsArticle → List NewsArticle
  | [] => []
  | a :: rest =>
      if a.uid ∈ seenU then dedupAux seenU seenT rest
      else if titleKey a ∈ seenT then dedupAux seenU seenT rest
      else a :: dedupAux (a.uid :: seenU) (titleKey a :: seenT) rest

/-- Embedding of `_deduplicate(articles)`. -/
def deduplicate (articles : List NewsArticle) : List NewsArticle :=
  dedupAux [] [] articles

/-! ### `crawl_ai_news` core (lines 383-428)

Steps 1-2 (network fetching of sources and search queries) are modelled
by taking the merged candidate list as input; the optional same-day
filter (step 4, network re-fetch per article) is modelled with
`NEWS_TODAY_ONLY` disabled, matching the dedup→categorize→truncate
stages named by the spec. `NEWS_MAX_ARTICLES` is config.py's default. -/

def NEWS_MAX_ARTICLES : Int := 15

/-- Python list slicing `l[:m]` for an `int` bound `m`
(negative `m` counts from the end). -/
def pySlice {α : Type} (l : List α) (m : Int) : List α :=
  if 0 ≤ m then l.take m.toNat else l.take (l.length - (-m).toNat)

/-- Step 5 of `crawl_ai_news`: `article.category = _categorize(article)`. -/
def withCategory (a : NewsArticle) : NewsArticle :=
  { a with category := categorize a }

/-- Embedding of `crawl_ai_news(max_articles)` after candidate
acquisition: `max_articles = max_articles or NEWS_MAX_ARTICLES` (only
`0` is falsy for an int), dedup, categorize, truncate. -/
def crawl_core (candidates : List NewsArticle) (max_articles : Int) : List NewsArticle :=
  let m := if max_articles = 0 then NEWS_MAX_ARTICLES else max_articles
  pySlice ((deduplicate candidates).map withCategory) m

/-! ### Pipeline orchestrator `run_pipeline` (pipeline.py lines 98-192)

The Feishu client is external I/O; its calls are modelled as an ordered
list of effects recorded in the result, and its environment (current
date/time strings, the created document's id/url, the resolved group
`chat_id`) as parameters.  `dict` results are modelled by
`PipelineResult`. -/

/-- A Feishu document block (`_build_feishu_blocks`, lines 23-81). -/
inductive Block where
  | text (s : String)
  | heading (level : Nat) (s : String)
  | link (s : String) (url : String)
  | bullet (s : String)
  | divider
  deriving DecidableEq, Repr

/-- A downstream publishing side effect of `run_pipeline`. -/
inductive FeishuEffect where
  | createDocument (title : String)
  | writeBlocks (count : Nat)
  | sendGroupMessage (chat_id : String) (text : String)
  deriving DecidableEq, Repr

/-- The category ordering used when rendering the document. -/
def category_order : List String :=
  ["🔥 重大发布", "🔬 研究突破", "💰 产业动态", "🛠️ 工具与应用", "🌍 政策与伦理", "📰 综合资讯"]

/-- Per-article blocks (title heading, source link, optional summary
and publish-time lines). -/
def articleBlocks (idx : Nat) (a : NewsArticle) : List Block :=
  [Block.heading 3 (toString idx ++ ". " ++ a.title),
   Block.link ("🔗 " ++ a.source ++ ": " ++ a.url) a.url]
  ++ (if a.summary ≠ "" then [Block.text ("📝 " ++ a.summary)] else [])
  ++ (match a.published_at with
      | some p => if p ≠ "" then [Block.text ("📅 发布: " ++ p)] else []
      | none => [])

/-- One category section of the document (skipped when empty). -/
def catSection (cat : String) (cat_articles : List NewsArticle) : List Block :=
  if cat_articles = [] then []
  else
    Block.heading 2 (cat ++ " (" ++ toString cat_articles.length ++ "篇)") ::
      (cat_articles.enum.foldr (fun p acc => articleBlocks (p.1 + 1) p.2 ++ acc) [])
      ++ [Block.divider]

/-- Embedding of `_build_feishu_blocks(articles, date_str)`;
`now_str` stands for `datetime.now().strftime(...)`. -/
def build_feishu_blocks (articles : List NewsArticle) (date_str now_str : String) :
    List Block :=
  [Block.text ("📅 日期: " ++ date_str ++ "  |  共 " ++ toString articles.length ++ " 篇"),
   Block.text ("⏰ 生成时间: " ++ now_str),
   Block.divider]
  ++ (category_order.foldr
       (fun cat acc => catSection cat (articles.filter (fun a => a.category = cat)) ++ acc) [])
  ++ [Block.heading 2 "🎯 今日要点"]
  ++ (articles.take 3).map (fun a => Block.bullet (a.title ++ " (" ++ a.source ++ ")"))
  ++ [Block.divider, Block.text "—— 由 AI 新闻聚合 Pipeline 自动生成 ——"]

/-- Embedding of `_build_group_text(articles, doc_url, date_str)`. -/
def build_group_text (articles : List NewsArticle) (doc_url date_str : String) : String :=
  String.intercalate "\n"
    ([("📰 AI 科技日报 " ++ date_str), ("共 " ++ toString articles.length ++ " 篇"),
      ("文档链接: " ++ doc_url), "", "今日精选："]
     ++ ((articles.take 5).enum.map
          (fun p => toString (p.1 + 1) ++ ". " ++ p.2.title)))

/-- The `dict` returned by `run_pipeline` plus the recorded effects. -/
structure PipelineResult where
  status : String
  article_count : Nat
  doc_url : Option String := none
  document_id : Option String := none
  effects : List FeishuEffect := []
  deriving DecidableEq, Repr

/-- Feishu write batch size (pipeline.py line 153). -/
def BATCH_SIZE : Nat := 50

/-- Embedding of `run_pipeline(dry_run)` given the crawl result
`articles` (phase 1) and the external environment; returns normally in
every case — the empty-crawl outcome is the `"empty"` status, and no
publishing effect is recorded for it. -/
def run_pipeline (articles : List NewsArticle) (dry_run : Bool)
    (date_str now_str doc_id doc_url : String) (chat_id : Option String) :
    PipelineResult :=
  if articles = [] then { status := "empty", article_count := 0 }
  else if dry_run then { status := "dry_run", article_count := articles.length }
  else
    let blocks := build_feishu_blocks articles date_str now_str
    let nBatches := (blocks.length + BATCH_SIZE - 1) / BATCH_SIZE
    let writeEffs := (List.range nBatches).map
      (fun i => FeishuEffect.writeBlocks (min BATCH_SIZE (blocks.length - i * BATCH_SIZE)))
    let groupEffs := match chat_id with
      | some c => [FeishuEffect.sendGroupMessage c (build_group_text articles doc_url date_str)]
      | none => []
    { status := "ok", article_count := articles.length, doc_url := some doc_url,
      document_id := some doc_id,
      effects := FeishuEffect.createDocument ("📰 AI 科技日报 — " ++ date_str) ::
        writeEffs ++ groupEffs }

/-! ## Theorems -/

/-! ### Shared helper lemmas -/

/-- Any `hexDigit` output is a lowercase hex character. -/
theorem hexDigit_mem (n : Nat) : hexDigit n ∈ hexChars := by
  unfold hexDigit
  rcases Nat.lt_or_ge n 16 with h | h
  · interval_cases n <;> decide
  · rw [List.getD_eq_default]
    · decide
    · simpa [hexChars] using h

/-- Length of the hex rendering of a byte list. -/
theorem hexFlat_length (l : List Nat) :
    ((l.map byteHex).foldr (· ++ ·) []).length = 2 * l.length := by
  induction l with
  | nil => rfl
  | cons x xs ih =>
      simp only [List.map_cons, List.foldr_cons, List.length_append, List.length_cons, ih,
        byteHex, List.length_cons, List.length_nil]
      omega

/-- Every character of the hex rendering is a hex character. -/
theorem hexFlat_mem (l : List Nat) :
    ∀ c ∈ (l.map byteHex).foldr (· ++ ·) [], c ∈ hexChars := by
  induction l with
  | nil => intro c hc; cases hc
  | cons x xs ih =>
      intro c hc
      rcases List.mem_append.1 hc with h | h
      · simp only [byteHex, List.mem_cons, List.not_mem_nil, or_false] at h
        rcases h with h | h
        · rw [h]; exact hexDigit_mem _
        · rw [h]; exact hexDigit_mem _
      · exact ih c h

/-- The four little-endian bytes of a word. -/
theorem leBytes4_length (n : Nat) : (leBytes 4 n).length = 4 := rfl

/-- The MD5 digest has 16 bytes. -/
theorem md5Bytes_length (s : String) : (md5Bytes s).length = 16 := by
  simp [md5Bytes, List.length_append, leBytes4_length]

/-- `md5hex` always yields 32 characters. -/
theorem md5hex_length (s : String) : (md5hex s).length = 32 := by
  show (((md5Bytes s).map byteHex).foldr (· ++ ·) []).length = 32
  rw [hexFlat_length, md5Bytes_length]

/-- `md5hex` yields only lowercase hex characters. -/
theorem md5hex_mem (s : String) : ∀ c ∈ (md5hex s).data, c ∈ hexChars :=
  hexFlat_mem _

/-! ### C6: truncation -/

/-- C6: for every extracted text and configured maximum length, text
longer than the maximum is cut to exactly the maximum number of
characters and suffixed with the ellipsis marker `"..."`, while text at
or under the maximum is returned unmodified (and a `None` element gives
`""`). -/
theorem extract_text_truncation (t : String) (max_len : Nat) :
    (t.length > max_len →
      extract_text (some t) max_len = pyTake t max_len ++ "..." ∧
      (pyTake t max_len).length = max_len ∧
      (extract_text (some t) max_len).length = max_len + 3) ∧
    (t.length ≤ max_len → extract_text (some t) max_len = t) ∧
    extract_text none max_len = "" := by
  refine ⟨fun h => ?_, fun h => ?_, rfl⟩
  · have he : extract_text (some t) max_len = pyTake t max_len ++ "..." := by
      simp [extract_text, h]
    have hlen : (pyTake t max_len).length = max_len := by
      show (t.1.take max_len).length = _
      rw [List.length_take]
      have : max_len < t.1.length := h
      omega
    have hdots : ("..." : String).length = 3 := rfl
    have happ : (pyTake t max_len ++ "...").length =
        (pyTake t max_len).length + ("..." : String).length := by simp
    exact ⟨he, hlen, by rw [he, happ, hlen, hdots]⟩
  · simp [extract_text, Nat.not_lt.mpr h]

/-- C6 witness: a 310-character input with maximum 300 is cut to 300
characters plus the marker; a 50-character input is unchanged. -/
theorem extract_text_truncation_witness :
    ((String.mk (List.replicate 310 'a')).length > 300 ∧
      extract_text (some (String.mk (List.replicate 310 'a'))) 300 =
        pyTake (String.mk (List.replicate 310 'a')) 300 ++ "..." ∧
      (extract_text (some (String.mk (List.replicate 310 'a'))) 300).length = 303) ∧
    ((String.mk (List.replicate 50 'b')).length ≤ 300 ∧
      extract_text (some (String.mk (List.replicate 50 'b'))) 300 =
        String.mk (List.replicate 50 'b')) := by
  have h1 := (extract_text_truncation (String.mk (List.replicate 310 'a')) 300).1 (by decide)
  have h2 := (extract_text_truncation (String.mk (List.replicate 50 'b')) 300).2.1 (by decide)
  exact ⟨⟨by decide, h1.1, h1.2.2⟩, ⟨by decide, h2⟩⟩

/-! ### C8: `uid` determinism and shape -/

/-- C8: `uid` is a pure deterministic function of `url` — equal `url`s
give equal `uid`s whatever the other fields; `uid` is exactly the first
12 characters of the MD5 hex digest of `url` (the invariant
`uid = hash12(url)` holds by definition, it is recomputed on each
access, never stored), and it always consists of 12 hex characters. -/
theorem uid_deterministic_hex12 (a b : NewsArticle) :
    (a.url = b.url → a.uid = b.uid) ∧
    a.uid = pyTake (md5hex a.url) 12 ∧
    a.uid.length = 12 ∧
    (∀ c ∈ a.uid.data, c ∈ hexChars) := by
  refine ⟨fun h => by simp [NewsArticle.uid, h], rfl, ?_, ?_⟩
  · show ((md5hex a.url).1.take 12).length = 12
    rw [List.length_take]
    have : (md5hex a.url).1.length = 32 := md5hex_length a.url
    omega
  · intro c hc
    have hd : a.uid.data = (md5hex a.url).data.take 12 := rfl
    rw [hd] at hc
    exact md5hex_mem _ c (List.mem_of_mem_take hc)

/-- C8 witness: two articles differing in every field but `url` share
the `uid` `"4976fda4a714"` (a 12-hex-character digest). -/
theorem uid_deterministic_hex12_witness :
    ({ title := "t1", url := "http://a.com/x" } : NewsArticle).uid =
      ({ title := "t2", url := "http://a.com/x", summary := "s" } : NewsArticle).uid ∧
    ({ title := "t1", url := "http://a.com/x" } : NewsArticle).uid = "4976fda4a714" := by
  refine ⟨(uid_deterministic_hex12 { title := "t1", url := "http://a.com/x" }
    { title := "t2", url := "http://a.com/x", summary := "s" }).1 rfl, by decide⟩

/-! ### C2: URL validity filter -/

/-- C2 counterexample: the code accepts `http://example.com/abc`
although its path `/abc` has fewer than two `/`-delimited segments,
does not end in a trailing slash, and has length at most 5 — the
claim's necessary conditions say it must be rejected. -/
theorem url_filter_counterexample :
    is_valid_article_url "http://example.com/abc" = true ∧
    pyLower (urlPath "http://example.com/abc") = "/abc" ∧
    slashCount "/abc" < 2 ∧
    pyEndsWith "/abc" "/" = false ∧
    ¬("/abc".length > 5) := by
  refine ⟨by decide, by decide, by decide, by decide, by decide⟩

/-- C2 (amended): the filter rejects any URL whose path contains an
administrative segment; a path with fewer than two `/` characters that
does NOT end in a trailing slash is accepted unconditionally; every
other path is accepted exactly when its length exceeds 5. Literally:
`/category/ai/` is rejected and `/2026/02/07/some-article-slug` is
accepted. -/
theorem url_filter_amended :
    (∀ url : String,
      (SKIP_PATTERNS.any (fun p => pyIn p (pyLower (urlPath url))) = true →
        is_valid_article_url url = false) ∧
      (SKIP_PATTERNS.any (fun p => pyIn p (pyLower (urlPath url))) = false →
        (slashCount (pyLower (urlPath url)) < 2 ∧
            pyEndsWith (pyLower (urlPath url)) "/" = false →
          is_valid_article_url url = true) ∧
        (2 ≤ slashCount (pyLower (urlPath url)) ∨
            pyEndsWith (pyLower (urlPath url)) "/" = true →
          (is_valid_article_url url = true ↔ (pyLower (urlPath url)).length > 5)))) ∧
    is_valid_article_url "/category/ai/" = false ∧
    is_valid_article_url "/2026/02/07/some-article-slug" = true := by
  refine ⟨fun url => ?_, by decide, by decide⟩
  refine ⟨fun h => by simp [is_valid_article_url, h], fun h => ⟨fun hc => ?_, fun hc => ?_⟩⟩
  · simp [is_valid_article_url, h, hc.1, hc.2]
  · have hb : (decide (slashCount (pyLower (urlPath url)) < 2) &&
        !(pyEndsWith (pyLower (urlPath url)) "/")) = false := by
      rcases hc with hc | hc
      · simp [Nat.not_lt.mpr hc]
      · simp [hc]
    simp [is_valid_article_url, h, hb]

/-- C2 witness: a two-segment path of length above 5 is accepted via
the length rule. -/
theorem url_filter_amended_witness :
    SKIP_PATTERNS.any (fun p => pyIn p (pyLower (urlPath "/news/article-1"))) = false ∧
    2 ≤ slashCount (pyLower (urlPath "/news/article-1")) ∧
    is_valid_article_url "/news/article-1" = true := by
  refine ⟨by decide, by decide, ?_⟩
  exact ((url_filter_amended.1 "/news/article-1").2 (by decide)).2
    (Or.inl (by decide)) |>.2 (by decide)

/-! ### C3: date parsing -/

/-- C3: the literal cases parse as the claim states, in the claimed
order of formats (the last conjunct shows an input matched by both the
numeric and the Chinese pattern resolving to the numeric one, and the
ISO case keeps its time-of-day, so ISO ran before the numeric
pattern); unparsable text gives a no-date result — BUT the code can
raise: on `"2026-13-01"` the numeric pattern matches and
`datetime(2026, 13, 1)` raises `ValueError`, contradicting the claim's
"never raises" (the spec's stated intent; the missing guard is the
bug). -/
theorem parse_datetime_cases :
    parse_datetime "2026-02-07" = .ok (some { year := 2026, month := 2, day := 7 }) ∧
    parse_datetime "2026年02月07日" = .ok (some { year := 2026, month := 2, day := 7 }) ∧
    parse_datetime "2026-02-07T10:00:00Z" =
      .ok (some { year := 2026, month := 2, day := 7, hour := 10, tz := some 0 }) ∧
    parse_datetime "" = .ok none ∧
    parse_datetime "no date here" = .ok none ∧
    parse_datetime "x 2026-01-02 2026年03月04日" =
      .ok (some { year := 2026, month := 1, day := 2 }) ∧
    parse_datetime "2026-13-01" = .error "month must be in 1..12" := by
  refine ⟨rfl, rfl, rfl, rfl, rfl, rfl, rfl⟩

/-! ### C9: empty pipeline outcome -/

/-- C9: when the crawl yields zero articles, `run_pipeline` returns the
explicit `"empty"` outcome (an ordinary return value, not an
exception) and performs no downstream publishing effect — no document
creation, no block writes, no group message — whatever the dry-run
flag and environment. -/
theorem run_pipeline_empty (dry_run : Bool) (date_str now_str doc_id doc_url : String)
    (chat_id : Option String) :
    run_pipeline [] dry_run date_str now_str doc_id doc_url chat_id =
      { status := "empty", article_count := 0, doc_url := none,
        document_id := none, effects := [] } := rfl

/-! ### C5: categorizer -/

/-- `firstMax p (q :: rest)` takes one fold step. -/
theorem firstMax_cons (p q : String × Nat) (rest : List (String × Nat)) :
    firstMax p (q :: rest) = firstMax (if q.2 > p.2 then q else p) rest := rfl

/-- The running best of the fold attains the maximum score. -/
theorem firstMax_snd (l : List (String × Nat)) :
    ∀ p, (firstMax p l).2 = max p.2 ((l.map Prod.snd).foldr max 0) := by
  induction l with
  | nil => intro p; simp [firstMax]
  | cons q rest ih =>
      intro p
      rw [firstMax_cons, ih]
      by_cases h : q.2 > p.2 <;> simp [h] <;> omega

/-- The fold's result is one of the scanned entries. -/
theorem firstMax_mem (l : List (String × Nat)) :
    ∀ p, firstMax p l ∈ p :: l := by
  induction l with
  | nil => intro p; rw [firstMax]; exact List.mem_cons_self _ _
  | cons q rest ih =>
      intro p
      rw [firstMax_cons]
      by_cases h : q.2 > p.2
      · rw [if_pos h]
        rcases List.mem_cons.1 (ih q) with h' | h'
        · rw [h']; exact List.mem_cons_of_mem _ (List.mem_cons_self _ _)
        · exact List.mem_cons_of_mem _ (List.mem_cons_of_mem _ h')
      · rw [if_neg h]
        rcases List.mem_cons.1 (ih p) with h' | h'
        · rw [h']; exact List.mem_cons_self _ _
        · exact List.mem_cons_of_mem _ (List.mem_cons_of_mem _ h')

/-- Python's `max(..., key=...)` (keep-on-tie fold) returns the FIRST
entry whose score equals the maximum. -/
theorem firstMax_find (l : List (String × Nat)) :
    ∀ p, (p :: l).find? (fun q => q.2 == (firstMax p l).2) = some (firstMax p l) := by
  induction l with
  | nil =>
      intro p
      rw [firstMax]
      simp [List.find?_cons]
  | cons q rest ih =>
      intro p
      rw [firstMax_cons]
      by_cases h : q.2 > p.2
      · rw [if_pos h]
        have hge : q.2 ≤ (firstMax q rest).2 := by rw [firstMax_snd]; omega
        have hne : (p.2 == (firstMax q rest).2) = false := by
          simp only [beq_eq_false_iff_ne, ne_eq]; omega
        simp only [List.find?_cons, hne]
        exact ih q
      · rw [if_neg h]
        by_cases hp : p.2 = (firstMax p rest).2
        · have htrue : (p.2 == (firstMax p rest).2) = true := by simp [hp]
          have h1 := ih p
          simp only [List.find?_cons, htrue] at h1
          simp only [List.find?_cons, htrue]
          exact h1
        · have hmax : p.2 ≤ (firstMax p rest).2 := by rw [firstMax_snd]; omega
          have hq : (q.2 == (firstMax p rest).2) = false := by
            simp only [beq_eq_false_iff_ne, ne_eq]; omega
          have hp' : (p.2 == (firstMax p rest).2) = false := by
            simp only [beq_eq_false_iff_ne, ne_eq]; omega
          simp only [List.find?_cons, hp', hq]
          have h1 := ih p
          simp only [List.find?_cons, hp'] at h1
          exact h1

/-- The selection made by the fold agrees with the spec's description
(first entry attaining the maximum count, default on zero max). -/
theorem firstMax_selection (p : String × Nat) (l : List (String × Nat)) (dflt : String) :
    (if (firstMax p l).2 > 0 then (firstMax p l).1 else dflt) =
      (if ((p :: l).map Prod.snd).foldr max 0 = 0 then dflt
       else
         match (p :: l).find? (fun q => q.2 == ((p :: l).map Prod.snd).foldr max 0) with
         | some q => q.1
         | none => dflt) := by
  have hsnd : (firstMax p l).2 = ((p :: l).map Prod.snd).foldr max 0 := by
    rw [firstMax_snd]; simp
  by_cases h : (firstMax p l).2 > 0
  · rw [if_pos h, if_neg (by omega), ← hsnd, firstMax_find]
  · rw [if_neg h, if_pos (by omega)]

/-- The chosen category name is one of the scanned category names. -/
theorem firstMax_fst_mem (p : String × Nat) (l : List (String × Nat)) :
    (firstMax p l).1 ∈ (p :: l).map Prod.fst :=
  List.mem_map_of_mem _ (firstMax_mem l p)

/-- The categorizer never returns the empty string. -/
theorem categorize_ne_empty (a : NewsArticle) : categorize a ≠ "" := by
  have hnames : ∀ x ∈ CATEGORY_KEYWORDS.map Prod.fst, x ≠ ("" : String) := by decide
  have hrfl : categorize a = (match CATEGORY_KEYWORDS.map
      (fun p => (p.1, categoryScore (pyLower (a.title ++ " " ++ a.summary)) p.2)) with
    | [] => "📰 综合资讯"
    | p :: rest =>
        if (firstMax p rest).2 > 0 then (firstMax p rest).1 else "📰 综合资讯") := rfl
  rw [hrfl]
  have hfst : (CATEGORY_KEYWORDS.map
      (fun p => (p.1, categoryScore (pyLower (a.title ++ " " ++ a.summary)) p.2))).map Prod.fst
      = CATEGORY_KEYWORDS.map Prod.fst := by
    rw [List.map_map]; rfl
  cases hm : CATEGORY_KEYWORDS.map
      (fun p => (p.1, categoryScore (pyLower (a.title ++ " " ++ a.summary)) p.2)) with
  | nil => decide
  | cons p rest =>
      show (if (firstMax p rest).2 > 0 then (firstMax p rest).1 else "📰 综合资讯") ≠ ""
      split
      · apply hnames
        rw [← hfst, hm]
        exact firstMax_fst_mem p rest
      · decide

/-- C5: for every article the code's categorizer agrees with the
spec's selection rule — highest keyword-match count over the
case-folded title-plus-summary, ties to the first category in
declaration order, catch-all on a zero maximum; the two literal cases
behave as stated ("OpenAI releases GPT-5 today" gets the category
whose keyword set contains "release"; "quarterly report on office
supplies" gets the catch-all). -/
theorem categorize_matches_spec :
    (∀ a : NewsArticle, categorize a = categorize_spec a) ∧
    categorize { title := "OpenAI releases GPT-5 today", url := "u" } = "🔥 重大发布" ∧
    (CATEGORY_KEYWORDS.any
      (fun p => p.1 == "🔥 重大发布" && p.2.contains "release")) = true ∧
    categorize { title := "quarterly report on office supplies", url := "u" } =
      "📰 综合资讯" := by
  refine ⟨fun a => ?_, by decide, by decide, by decide⟩
  unfold categorize categorize_spec
  simp only [CATEGORY_KEYWORDS, List.map_cons, List.map_nil]
  exact firstMax_selection _ _ _

/-! ### C4: deduplicator -/

/-- The dedup pass returns a sublist of its input (order preserved,
nothing added). -/
theorem dedupAux_sublist (l : List NewsArticle) :
    ∀ sU sT, (dedupAux sU sT l).Sublist l := by
  induction l with
  | nil => intro sU sT; simp [dedupAux]
  | cons a rest ih =>
      intro sU sT
      by_cases h1 : a.uid ∈ sU
      · simp only [dedupAux, if_pos h1]
        exact (ih sU sT).cons a
      · by_cases h2 : titleKey a ∈ sT
        · simp only [dedupAux, if_neg h1, if_pos h2]
          exact (ih sU sT).cons a
        · simp only [dedupAux, if_neg h1, if_neg h2]
          exact (ih _ _).cons₂ a

/-- Every kept article's keys avoid the incoming seen sets. -/
theorem dedupAux_keys (l : List NewsArticle) :
    ∀ sU sT, ∀ x ∈ dedupAux sU sT l, x.uid ∉ sU ∧ titleKey x ∉ sT := by
  induction l with
  | nil => intro sU sT x hx; cases hx
  | cons a rest ih =>
      intro sU sT x hx
      by_cases h1 : a.uid ∈ sU
      · rw [dedupAux, if_pos h1] at hx
        exact ih sU sT x hx
      · by_cases h2 : titleKey a ∈ sT
        · rw [dedupAux, if_neg h1, if_pos h2] at hx
          exact ih sU sT x hx
        · rw [dedupAux, if_neg h1, if_neg h2] at hx
          rcases List.mem_cons.1 hx with h | h
          · rw [h]; exact ⟨h1, h2⟩
          · have := ih _ _ x h
            exact ⟨fun hc => this.1 (List.mem_cons_of_mem _ hc),
                   fun hc => this.2 (List.mem_cons_of_mem _ hc)⟩

/-- The kept articles have pairwise distinct `uid`s and title keys. -/
theorem dedupAux_pairwise (l : List NewsArticle) :
    ∀ sU sT, (dedupAux sU sT l).Pairwise
      (fun x y => x.uid ≠ y.uid ∧ titleKey x ≠ titleKey y) := by
  induction l with
  | nil => intro sU sT; simp [dedupAux]
  | cons a rest ih =>
      intro sU sT
      by_cases h1 : a.uid ∈ sU
      · rw [dedupAux, if_pos h1]; exact ih sU sT
      · by_cases h2 : titleKey a ∈ sT
        · rw [dedupAux, if_neg h1, if_pos h2]; exact ih sU sT
        · rw [dedupAux, if_neg h1, if_neg h2]
          refine List.Pairwise.cons (fun y hy => ?_) (ih _ _)
          have hk := dedupAux_keys rest _ _ y hy
          exact ⟨fun hc => hk.1 (by rw [← hc]; exact List.mem_cons_self _ _),
                 fun hc => hk.2 (by rw [← hc]; exact List.mem_cons_self _ _)⟩

/-- A list whose keys are fresh and pairwise distinct passes through
the dedup pass unchanged. -/
theorem dedupAux_eq_self (l : List NewsArticle) :
    ∀ sU sT, (∀ x ∈ l, x.uid ∉ sU ∧ titleKey x ∉ sT) →
      l.Pairwise (fun x y => x.uid ≠ y.uid ∧ titleKey x ≠ titleKey y) →
      dedupAux sU sT l = l := by
  induction l with
  | nil => intro sU sT _ _; rfl
  | cons a rest ih =>
      intro sU sT hfresh hpw
      have ha := hfresh a (List.mem_cons_self _ _)
      rw [dedupAux, if_neg ha.1, if_neg ha.2]
      have hrest := List.pairwise_cons.1 hpw
      refine congrArg (a :: ·) (ih _ _ (fun x hx => ?_) hrest.2)
      have hx' := hfresh x (List.mem_cons_of_mem _ hx)
      have hax := hrest.1 x hx
      constructor
      · intro hc
        rcases List.mem_cons.1 hc with h | h
        · exact hax.1 h.symm
        · exact hx'.1 h
      · intro hc
        rcases List.mem_cons.1 hc with h | h
        · exact hax.2 h.symm
        · exact hx'.2 h

/-- An article preceded only by articles with different `uid` and
different title key is always kept (first occurrence wins). -/
theorem dedupAux_first_wins (l₁ : List NewsArticle) :
    ∀ (a : NewsArticle) (l₂ : List NewsArticle) (sU sT : List String),
      (∀ b ∈ l₁, b.uid ≠ a.uid ∧ titleKey b ≠ titleKey a) →
      a.uid ∉ sU → titleKey a ∉ sT →
      a ∈ dedupAux sU sT (l₁ ++ a :: l₂) := by
  induction l₁ with
  | nil =>
      intro a l₂ sU sT _ hU hT
      rw [List.nil_append, dedupAux, if_neg hU, if_neg hT]
      exact List.mem_cons_self _ _
  | cons b rest ih =>
      intro a l₂ sU sT hfresh hU hT
      have hb := hfresh b (List.mem_cons_self _ _)
      have hrest : ∀ c ∈ rest, c.uid ≠ a.uid ∧ titleKey c ≠ titleKey a :=
        fun c hc => hfresh c (List.mem_cons_of_mem _ hc)
      rw [List.cons_append]
      by_cases h1 : b.uid ∈ sU
      · rw [dedupAux, if_pos h1]
        exact ih a l₂ sU sT hrest hU hT
      · by_cases h2 : titleKey b ∈ sT
        · rw [dedupAux, if_neg h1, if_pos h2]
          exact ih a l₂ sU sT hrest hU hT
        · rw [dedupAux, if_neg h1, if_neg h2]
          refine List.mem_cons_of_mem _ (ih a l₂ _ _ hrest ?_ ?_)
          · intro hc
            rcases List.mem_cons.1 hc with h | h
            · exact hb.1 h.symm
            · exact hU h
          · intro hc
            rcases List.mem_cons.1 hc with h | h
            · exact hb.2 h.symm
            · exact hT h

/-- C4: the Deduplicator is idempotent, its output is a sublist of its
input (insertion order preserved, nothing duplicated in), and the
first occurrence of each duplicate group — an article preceded by no
article sharing its `uid` or its truncated-lowercased-stripped title
key — always survives. -/
theorem deduplicate_props (l : List NewsArticle) :
    deduplicate (deduplicate l) = deduplicate l ∧
    (deduplicate l).Sublist l ∧
    (∀ l₁ a l₂, l = l₁ ++ a :: l₂ →
      (∀ b ∈ l₁, b.uid ≠ a.uid ∧ titleKey b ≠ titleKey a) →
      a ∈ deduplicate l) := by
  refine ⟨?_, dedupAux_sublist l [] [], fun l₁ a l₂ hsplit hfresh => ?_⟩
  · exact dedupAux_eq_self _ [] []
      (fun x _ => ⟨List.not_mem_nil _, List.not_mem_nil _⟩)
      (dedupAux_pairwise l [] [])
  · rw [hsplit]
    exact dedupAux_first_wins l₁ a l₂ [] [] hfresh
      (List.not_mem_nil _) (List.not_mem_nil _)

/-- C4 witness: on two articles with different URLs and different
titles, both survive; idempotence and order hold concretely. -/
theorem deduplicate_props_witness :
    deduplicate (deduplicate
      [{ title := "Alpha story", url := "http://a.com/x" },
       { title := "Beta story", url := "http://b.com/y" }]) =
      deduplicate
        [{ title := "Alpha story", url := "http://a.com/x" },
         { title := "Beta story", url := "http://b.com/y" }] ∧
    ({ title := "Beta story", url := "http://b.com/y" } : NewsArticle) ∈
      deduplicate
        [{ title := "Alpha story", url := "http://a.com/x" },
         { title := "Beta story", url := "http://b.com/y" }] := by
  refine ⟨(deduplicate_props _).1, ?_⟩
  exact (deduplicate_props
      [{ title := "Alpha story", url := "http://a.com/x" },
       { title := "Beta story", url := "http://b.com/y" }]).2.2
    [{ title := "Alpha story", url := "http://a.com/x" }]
    { title := "Beta story", url := "http://b.com/y" } [] rfl
    (by decide)

/-! ### C7: date enrichment -/

/-- C7 counterexample: when the raw hint `"tomorrow"` fails to parse
and the re-fetch recovers nothing, `published_at` is NOT left unset —
it still holds the raw unparsable hint after enrichment. -/
theorem enrich_counterexample :
    enrich_published_at
        { title := "t", url := "http://a.com/x", published_at := some "tomorrow" } none =
      .ok (none, { title := "t", url := "http://a.com/x", published_at := some "tomorrow" }) ∧
    ({ title := "t", url := "http://a.com/x", published_at := some "tomorrow" }
      : NewsArticle).published_at ≠ none := by
  exact ⟨rfl, by simp⟩

/-- C7 (amended): when the raw publish hint parses, or it fails and the
string recovered from the article's own page parses, `published_at` is
overwritten with the normalized (`isoformat`) value; when parsing
fails everywhere, the article is returned unchanged — `published_at`
keeps whatever value (possibly a raw unparsed hint) it already held. -/
theorem enrich_amended (art : NewsArticle) (fetched : Option String) (dt : PyDateTime) :
    (parse_datetime (art.published_at.getD "") = .ok (some dt) →
      enrich_published_at art fetched =
        .ok (some dt, { art with published_at := some (isoformat dt) })) ∧
    (parse_datetime (art.published_at.getD "") = .ok none → fetched = none →
      enrich_published_at art fetched = .ok (none, art)) ∧
    (∀ raw, parse_datetime (art.published_at.getD "") = .ok none → fetched = some raw →
      parse_datetime raw = .ok (some dt) →
      enrich_published_at art fetched =
        .ok (some dt, { art with published_at := some (isoformat dt) })) ∧
    (∀ raw, parse_datetime (art.published_at.getD "") = .ok none → fetched = some raw →
      parse_datetime raw = .ok none →
      enrich_published_at art fetched = .ok (none, art)) := by
  refine ⟨fun h => ?_, fun h hf => ?_, fun raw h hf hr => ?_, fun raw h hf hr => ?_⟩
  · simp only [enrich_published_at, h]; rfl
  · simp only [enrich_published_at, h, hf]; rfl
  · simp only [enrich_published_at, h, hf, hr]; rfl
  · simp only [enrich_published_at, h, hf, hr]; rfl

/-- C7 witness: a parsable hint `"2026-02-07"` is normalized to
`"2026-02-07T00:00:00"`; an unparsable hint with a parsable re-fetched
string `"2026-02-07T10:00:00Z"` is normalized with its UTC offset. -/
theorem enrich_amended_witness :
    enrich_published_at
        { title := "t", url := "u", published_at := some "2026-02-07" } none =
      .ok (some { year := 2026, month := 2, day := 7 },
           { title := "t", url := "u", published_at := some "2026-02-07T00:00:00" }) ∧
    enrich_published_at
        { title := "t", url := "u", published_at := some "???" }
        (some "2026-02-07T10:00:00Z") =
      .ok (some { year := 2026, month := 2, day := 7, hour := 10, tz := some 0 },
           { title := "t", url := "u",
             published_at := some "2026-02-07T10:00:00+00:00" }) := by
  constructor
  · exact (enrich_amended
      { title := "t", url := "u", published_at := some "2026-02-07" } none
      { year := 2026, month := 2, day := 7 }).1 rfl
  · exact (enrich_amended
      { title := "t", url := "u", published_at := some "???" }
      (some "2026-02-07T10:00:00Z")
      { year := 2026, month := 2, day := 7, hour := 10, tz := some 0 }).2.2.1
      "2026-02-07T10:00:00Z" rfl rfl rfl

/-! ### C1: end-to-end dedup → categorize → truncate -/

/-- C1 counterexample: three candidates satisfying the claim's
configuration — the first two share a URL, the third has a distinct
URL but its title key collides with the first — yield ONE surviving
article, not the claimed two (the URL-duplicate and the title-collider
are both dropped). -/
theorem pipeline_e2e_counterexample :
    ({ title := "Breaking News Story One Long Title",
       url := "http://a.com/x" } : NewsArticle).url =
      ({ title := "Completely different headline",
         url := "http://a.com/x" } : NewsArticle).url ∧
    ({ title := "Breaking News Story One More Take",
       url := "http://b.com/y" } : NewsArticle).url ≠ "http://a.com/x" ∧
    titleKey { title := "Breaking News Story One More Take", url := "http://b.com/y" } =
      titleKey { title := "Breaking News Story One Long Title", url := "http://a.com/x" } ∧
    (crawl_core
      [{ title := "Breaking News Story One Long Title", url := "http://a.com/x" },
       { title := "Completely different headline", url := "http://a.com/x" },
       { title := "Breaking News Story One More Take", url := "http://b.com/y" }]
      15).length = 1 := by
  refine ⟨rfl, by decide, by decide, by decide⟩

/-- C1 (amended): for three candidates with the first two sharing a
URL and the third carrying a fresh `uid`, the pipeline keeps exactly
one article of the duplicate-URL pair; the third is dropped exactly
when its title key collides with the KEPT article's (a collision with
the dropped duplicate's title key does not remove it, since dropped
articles never register their title key), giving one or two surviving
articles respectively; every surviving article carries a non-empty
category assigned before truncation. -/
theorem pipeline_e2e_amended (a1 a2 a3 : NewsArticle) (max : Int)
    (hurl : a1.url = a2.url) (hud : a3.uid ≠ a1.uid) (hmax : 2 ≤ max) :
    (titleKey a3 = titleKey a1 →
      crawl_core [a1, a2, a3] max = [withCategory a1]) ∧
    (titleKey a3 ≠ titleKey a1 →
      crawl_core [a1, a2, a3] max = [withCategory a1, withCategory a3]) ∧
    (∀ x ∈ crawl_core [a1, a2, a3] max, x.category ≠ "") := by
  have hu2 : a2.uid = a1.uid := by
    show pyTake (md5hex a2.url) 12 = pyTake (md5hex a1.url) 12
    rw [hurl]
  have hm0 : ¬(max = 0) := by omega
  have hd : deduplicate [a1, a2, a3] =
      if titleKey a3 = titleKey a1 then [a1] else [a1, a3] := by
    unfold deduplicate
    rw [dedupAux, if_neg (List.not_mem_nil _), if_neg (List.not_mem_nil _)]
    rw [dedupAux, if_pos (by rw [hu2]; exact List.mem_cons_self _ _)]
    by_cases ht : titleKey a3 = titleKey a1
    · rw [if_pos ht, dedupAux,
        if_neg (by simp [hud]), if_pos (by simp [ht])]
      rfl
    · rw [if_neg ht, dedupAux,
        if_neg (by simp [hud]), if_neg (by simp [ht])]
      rfl
  have htake : ∀ l : List NewsArticle, l.length ≤ 2 → pySlice l max = l := by
    intro l hl
    unfold pySlice
    rw [if_pos (by omega)]
    exact List.take_of_length_le (by omega)
  refine ⟨fun ht => ?_, fun ht => ?_, fun x hx => ?_⟩
  · show pySlice ((deduplicate [a1, a2, a3]).map withCategory) _ = _
    rw [if_neg hm0, hd, if_pos ht]
    exact htake _ (by simp)
  · show pySlice ((deduplicate [a1, a2, a3]).map withCategory) _ = _
    rw [if_neg hm0, hd, if_neg ht]
    exact htake _ (by simp)
  · have hx' : x ∈ ((deduplicate [a1, a2, a3]).map withCategory) := by
      have : crawl_core [a1, a2, a3] max =
          pySlice ((deduplicate [a1, a2, a3]).map withCategory) max := by
        show pySlice _ _ = _
        rw [if_neg hm0]
      rw [this] at hx
      unfold pySlice at hx
      split at hx
      · exact List.mem_of_mem_take hx
      · exact List.mem_of_mem_take hx
    rcases List.mem_map.1 hx' with ⟨y, _, hy⟩
    rw [← hy]
    show categorize y ≠ ""
    exact categorize_ne_empty y

/-- C1 amended witness: the concrete collision-with-kept case gives
exactly one categorized survivor. -/
theorem pipeline_e2e_amended_witness :
    crawl_core
      [{ title := "Breaking News Story One Long Title", url := "http://a.com/x" },
       { title := "Completely different headline", url := "http://a.com/x" },
       { title := "Breaking News Story One More Take", url := "http://b.com/y" }]
      15 =
      [withCategory { title := "Breaking News Story One Long Title",
                      url := "http://a.com/x" }] := by
  exact (pipeline_e2e_amended
    { title := "Breaking News Story One Long Title", url := "http://a.com/x" }
    { title := "Completely different headline", url := "http://a.com/x" }
    { title := "Breaking News Story One More Take", url := "http://b.com/y" }
    15 rfl (by decide) (by decide)).1 (by decide)

/-! ### C10: the `max_articles` parameter -/

/-- C10 counterexample: a negative `max_articles` can produce an empty
result from a nonempty crawl — `crawl_ai_news(-1)` on one surviving
candidate returns no articles, so the parameter CAN force an empty
result. -/
theorem crawl_max_counterexample :
    crawl_core [{ title := "Some AI headline here", url := "http://a.com/x" }] (-1)
      = [] ∧
    ((-1 : Int) = 0) = False ∧
    deduplicate [{ title := "Some AI headline here", url := "http://a.com/x" }] ≠ [] := by
  refine ⟨rfl, by simp, by decide⟩

/-- C10 (amended): `max_articles = 0` (the default) does not request
zero articles — the cap falls back to `NEWS_MAX_ARTICLES`, and with at
least one surviving article the result is nonempty; every POSITIVE
`max_articles` returns exactly the first `max_articles` surviving
articles in order; but a NEGATIVE value slices from the end and can
produce an empty result. -/
theorem crawl_max_amended :
    (∀ cands : List NewsArticle,
      crawl_core cands 0 = crawl_core cands NEWS_MAX_ARTICLES) ∧
    (∀ cands : List NewsArticle, deduplicate cands ≠ [] → crawl_core cands 0 ≠ []) ∧
    (∀ (cands : List NewsArticle) (m : Int), 0 < m →
      crawl_core cands m = ((deduplicate cands).map withCategory).take m.toNat) := by
  refine ⟨fun cands => ?_, fun cands hne => ?_, fun cands m hm => ?_⟩
  · rfl
  · show pySlice ((deduplicate cands).map withCategory) _ ≠ []
    rw [if_pos rfl]
    unfold pySlice NEWS_MAX_ARTICLES
    rw [if_pos (by omega)]
    intro hc
    rcases List.take_eq_nil_iff.1 hc with h | h
    · simp at h
    · exact hne (List.map_eq_nil.1 h)
  · show pySlice ((deduplicate cands).map withCategory) _ = _
    rw [if_neg (by omega)]
    unfold pySlice
    rw [if_pos (by omega)]

/-- C10 witness: with one candidate, the default cap keeps it, and a
positive cap of 1 returns the first survivor. -/
theorem crawl_max_amended_witness :
    crawl_core [{ title := "Some AI headline here", url := "http://a.com/x" }] 0 =
      crawl_core [{ title := "Some AI headline here", url := "http://a.com/x" }] 15 ∧
    crawl_core [{ title := "Some AI headline here", url := "http://a.com/x" }] 0 ≠ [] ∧
    crawl_core [{ title := "Some AI headline here", url := "http://a.com/x" }] 1 =
      ((deduplicate [{ title := "Some AI headline here", url := "http://a.com/x" }]).map
        withCategory).take 1 := by
  refine ⟨crawl_max_amended.1 _, crawl_max_amended.2.1 _ (by decide),
    crawl_max_amended.2.2 _ 1 (by omega)⟩

end FeishuNews

